import Mathlib

/-!
Verification development for the telegraf-input-netconf plugin
(plugins/inputs/netconf/netconf.go and cmd/netconf-client).

The Go source is shallowly embedded:

* The raw XML reply payload is modelled at the token level
  (`XmlToken`): start tags, end tags and character data.  Go's
  `encoding/xml` tokenizer plus tree construction is modelled by
  `parseXml`; a token stream on which `parseXml` fails models a
  non-well-formed (malformed) payload.
* `xml.Unmarshal` into the anonymous result struct of `Gather` is
  modelled by `unmarshalReply` (field matching by element name,
  slice accumulation for repeated `interface` elements, last-wins
  overwriting for scalar fields, zero default for empty numeric
  character data, and an error for non-numeric character data,
  following `encoding/xml`'s `copyValue` / `strconv.ParseUint`).
* The session cache (`Netconf.connections`) is an association list
  from device address to session; `connect` and `disconnectAll`
  follow the Go functions, with `connect` additionally reporting how
  many times `netconf.DialSSH` was invoked (0 or 1) so that claims
  about connector call counts can be stated.
* `Gather` is modelled by `gatherLoop`/`gather`, parameterised by the
  external effects: `dial` (netconf.DialSSH) and `exec`
  (session.Exec of the fixed interface-statistics RPC).  The
  accumulator (`telegraf.Accumulator`) is modelled by the lists of
  emitted metrics and accumulated errors; the value returned by
  `Gather` is the `ret` field (`none` models a nil error).
-/

namespace Netconf

/-- A NETCONF session handle; the Go `*netconf.Session` is opaque to the
plugin, so it is modelled by a bare identifier. -/
abbrev Session := Nat

/-- Device from the TOML configuration (netconf.go, type Device). -/
structure Device where
  address : String
  username : String
  password : String
deriving DecidableEq, Repr

/-- The session cache `connections map[string]*netconf.Session`,
modelled as an association list from address to session. -/
abbrev Connections := List (String × Session)

/-! ## XML payload model -/

/-- One token of the XML reply payload, as produced by the
`encoding/xml` tokenizer. -/
inductive XmlToken where
  | startTag (name : String)
  | endTag (name : String)
  | charData (s : String)
deriving DecidableEq, Repr

/-- A well-formed XML node (element tree or character data). -/
inductive Xml where
  | elem (name : String) (children : List Xml)
  | text (s : String)
deriving Repr

/-- Parse a sequence of sibling nodes, stopping (without consuming)
at an end tag or at the end of input.  A start tag opens an element
whose children are parsed recursively and whose end tag must match;
any mismatch or truncation is a syntax error, as in the
`encoding/xml` decoder. -/
def parseNodes : Nat → List XmlToken → Except String (List Xml × List XmlToken)
  | 0, _ => .error "fuel exhausted"
  | _ + 1, [] => .ok ([], [])
  | _ + 1, XmlToken.endTag name :: rest => .ok ([], XmlToken.endTag name :: rest)
  | fuel + 1, XmlToken.charData s :: rest =>
    match parseNodes fuel rest with
    | .error e => .error e
    | .ok (ns, r) => .ok (Xml.text s :: ns, r)
  | fuel + 1, XmlToken.startTag name :: rest =>
    match parseNodes fuel rest with
    | .error e => .error e
    | .ok (children, r1) =>
      match r1 with
      | XmlToken.endTag name2 :: r2 =>
        if name2 = name then
          match parseNodes fuel r2 with
          | .error e => .error e
          | .ok (ns, r3) => .ok (Xml.elem name children :: ns, r3)
        else .error "mismatched end tag"
      | _ => .error "missing end tag"

/-- Model of how `xml.Unmarshal` skips every token before the first start tag
(character data outside the root element is ignored). -/
def skipLeadingText : List XmlToken → List XmlToken
  | XmlToken.charData _ :: rest => skipLeadingText rest
  | ts => ts

/-- Parse the payload into its root element.  Tokens after the root
element's end tag are never read by `xml.Unmarshal` and are ignored;
an empty payload or a payload with no well-formed root element is a
decode error. -/
def parseXml (ts : List XmlToken) : Except String Xml :=
  match skipLeadingText ts with
  | XmlToken.startTag name :: rest =>
    match parseNodes (ts.length + 1) rest with
    | .error e => .error e
    | .ok (children, r1) =>
      match r1 with
      | XmlToken.endTag name2 :: _ =>
        if name2 = name then .ok (Xml.elem name children)
        else .error "mismatched end tag"
      | _ => .error "missing end tag"
  | XmlToken.endTag _ :: _ => .error "unexpected end tag"
  | _ => .error "unexpected EOF"

/-- The character data of an element: the concatenation of its direct
text children (nested elements are skipped, as `encoding/xml` does
when filling a scalar field). -/
def charData : List Xml → String
  | [] => ""
  | Xml.text s :: rest => s ++ charData rest
  | Xml.elem _ _ :: rest => charData rest

/-! ## `xml.Unmarshal` into the result struct of `Gather` -/

/-- Whitespace characters trimmed by `strings.TrimSpace` (restricted
to the ASCII whitespace that can occur in the XML payloads). -/
def isSpaceChar (c : Char) : Bool :=
  c = ' ' || c = '\t' || c = '\n' || c = '\r'

/-- Model of `strings.TrimSpace` on the character list of a string. -/
def trimChars (cs : List Char) : List Char :=
  ((cs.dropWhile isSpaceChar).reverse.dropWhile isSpaceChar).reverse

/-- Model of `strconv.ParseUint(strings.TrimSpace(s), 10, 64)`: trims
whitespace, then requires a non-empty all-digit string whose value
fits in 64 bits. -/
def parseUint64 (s : String) : Except String Nat :=
  let t := trimChars s.toList
  if t.isEmpty then .error "invalid syntax"
  else if t.all Char.isDigit then
    let n := t.foldl (fun acc c => 10 * acc + (c.toNat - 48)) 0
    if n < 2 ^ 64 then .ok n else .error "value out of range"
  else .error "invalid syntax"

/-- Model of the `encoding/xml` `copyValue` step for a `uint64` field: empty character
data yields the zero value, otherwise the data must parse as an
unsigned integer. -/
def copyUint64 (src : String) : Except String Nat :=
  if src = "" then .ok 0 else parseUint64 src

/-- The `Statistics` sub-struct of the anonymous result struct. -/
structure Stats where
  inOctets : Nat := 0
  outOctets : Nat := 0
deriving DecidableEq, Repr

/-- One decoded `interface` entry (`Name` and `Statistics`). -/
structure GoIface where
  name : String := ""
  stats : Stats := {}
deriving DecidableEq, Repr

/-- Unmarshal the children of a `statistics` element into the `Stats`
struct: `in-octets` and `out-octets` set their field (a later
occurrence overwrites an earlier one), any other child is skipped. -/
def unmarshalStats (st : Stats) : List Xml → Except String Stats
  | [] => .ok st
  | Xml.text _ :: rest => unmarshalStats st rest
  | Xml.elem n cs :: rest =>
    if n = "in-octets" then
      match copyUint64 (charData cs) with
      | .error e => .error e
      | .ok v => unmarshalStats { st with inOctets := v } rest
    else if n = "out-octets" then
      match copyUint64 (charData cs) with
      | .error e => .error e
      | .ok v => unmarshalStats { st with outOctets := v } rest
    else unmarshalStats st rest

/-- Unmarshal the children of an `interface` element: a `name` child
sets the name from its character data, a `statistics` child
unmarshals into the current `Stats` value, anything else is
skipped. -/
def unmarshalIfaceLoop (it : GoIface) : List Xml → Except String GoIface
  | [] => .ok it
  | Xml.text _ :: rest => unmarshalIfaceLoop it rest
  | Xml.elem n cs :: rest =>
    if n = "name" then unmarshalIfaceLoop { it with name := charData cs } rest
    else if n = "statistics" then
      match unmarshalStats it.stats cs with
      | .error e => .error e
      | .ok st => unmarshalIfaceLoop { it with stats := st } rest
    else unmarshalIfaceLoop it rest

/-- Unmarshal an `interface` element (given its children) into a
`GoIface`, starting from the zero value. -/
def unmarshalInterface (cs : List Xml) : Except String GoIface :=
  unmarshalIfaceLoop {} cs

/-- Process the children of an `interfaces` element: each `interface`
child is unmarshalled and appended to the `Interface` slice, other
children are skipped. -/
def interfacesLoop (acc : List GoIface) : List Xml → Except String (List GoIface)
  | [] => .ok acc
  | Xml.text _ :: rest => interfacesLoop acc rest
  | Xml.elem n cs :: rest =>
    if n = "interface" then
      match unmarshalInterface cs with
      | .error e => .error e
      | .ok it => interfacesLoop (acc ++ [it]) rest
    else interfacesLoop acc rest

/-- Process the children of the root element: each `interfaces` child
unmarshals its `interface` children into the shared slice (repeated
`interfaces` elements accumulate, as `encoding/xml` appends to the
nested slice), other children are skipped. -/
def rootLoop (acc : List GoIface) : List Xml → Except String (List GoIface)
  | [] => .ok acc
  | Xml.text _ :: rest => rootLoop acc rest
  | Xml.elem n cs :: rest =>
    if n = "interfaces" then
      match interfacesLoop acc cs with
      | .error e => .error e
      | .ok acc2 => rootLoop acc2 rest
    else rootLoop acc rest

/-- Unmarshal the root element into the result struct, yielding the
`Interfaces.Interface` slice. -/
def unmarshalReply : Xml → Except String (List GoIface)
  | Xml.elem _ cs => rootLoop [] cs
  | Xml.text _ => .error "not an element"

/-- The decode step of `Gather`: parse the raw reply payload and
unmarshal it into the list of interface readings. -/
def decode (ts : List XmlToken) : Except String (List GoIface) :=
  match parseXml ts with
  | .error e => .error e
  | .ok x => unmarshalReply x

/-! ## Observation functions used to state the decode claims -/

/-- Returns `true` iff the computation succeeded. -/
def exceptOk {α : Type} : Except String α → Bool
  | .ok _ => true
  | .error _ => false

/-- The children of an `interface` element, when the node is one. -/
def entryChildren : Xml → Option (List Xml)
  | Xml.elem n cs => if n = "interface" then some cs else none
  | Xml.text _ => none

/-- The `interface` entries contributed by one child of the root
element (the entries of an `interfaces` element, in document
order). -/
def interfaceChildren : Xml → List (List Xml)
  | Xml.elem n cs => if n = "interfaces" then cs.filterMap entryChildren else []
  | Xml.text _ => []

/-- All `interface` entries of a reply document, in document order:
the entries of every `interfaces` child of the root element. -/
def interfaceElems : Xml → List (List Xml)
  | Xml.elem _ cs => (cs.map interfaceChildren).flatten
  | Xml.text _ => []

/-- The reading an `interface` entry unmarshals to (the zero value
when unmarshalling fails; only used under a success hypothesis). -/
def ifaceOf (cs : List Xml) : GoIface :=
  match unmarshalInterface cs with
  | .ok r => r
  | .error _ => {}

/-- The children of a `statistics` element, when the node is one. -/
def statChildren : Xml → Option (List Xml)
  | Xml.elem n cs => if n = "statistics" then some cs else none
  | Xml.text _ => none

/-- Returns `true` iff the node is an element with the given name. -/
def hasName (nm : String) : Xml → Bool
  | Xml.elem n _ => n = nm
  | Xml.text _ => false

/-- Returns `true` iff no `statistics` child of the entry has an `in-octets`
child: the entry lacks the `statistics/in-octets` element. -/
def noInOctets (cs : List Xml) : Bool :=
  cs.all fun c =>
    match statChildren c with
    | some cs2 => !(cs2.any (hasName "in-octets"))
    | none => true

/-- Returns `true` iff every `out-octets` field under a `statistics` child of
the entry has character data that unmarshals without error. -/
def outOctetsOk (cs : List Xml) : Bool :=
  cs.all fun c =>
    match statChildren c with
    | some cs2 =>
      cs2.all fun c2 =>
        match c2 with
        | Xml.elem n cs3 =>
          if n = "out-octets" then exceptOk (copyUint64 (charData cs3)) else true
        | Xml.text _ => true
    | none => true

/-! ## Session store: `connect` and `disconnectAll` -/

/-- Model of `Netconf.connect` (netconf.go): reuse the cached session for the
device's address if present; otherwise dial (`netconf.DialSSH`,
modelled by the `dial` parameter), wrap a failure in a message naming
the address, and on success store the new session under the address.
The last component counts how many times `dial` was invoked (0 when a
cached session is reused, 1 otherwise). -/
def connect (dial : Device → Except String Session) (conns : Connections)
    (d : Device) : Except String Session × Connections × Nat :=
  match conns.lookup d.address with
  | some s => (.ok s, conns, 0)
  | none =>
    match dial d with
    | .error e =>
      (.error ("failed to connect to " ++ d.address ++ ": " ++ e), conns, 1)
    | .ok s => (.ok s, (d.address, s) :: conns, 1)

/-- Model of `Netconf.disconnectAll` (netconf.go): close every cached session
and delete its entry.  Returns the sessions that were closed and the
resulting store. -/
def disconnectAll : Connections → List Session × Connections
  | [] => ([], [])
  | (_, s) :: rest =>
    match disconnectAll rest with
    | (closed, st) => (s :: closed, st)

/-! ## The poll pass: `Gather` -/

/-- One metric handed to `acc.AddFields`: measurement name, tags, and
`uint64` fields. -/
structure Metric where
  measurement : String
  tags : List (String × String)
  fields : List (String × Nat)
deriving DecidableEq, Repr

/-- The metric emitted for one decoded interface reading of one
device (the `acc.AddFields("netconf_interface", fields, tags)` call
in `Gather`). -/
def ifaceMetric (addr : String) (r : GoIface) : Metric :=
  { measurement := "netconf_interface"
    tags := [("interface", r.name), ("device", addr)]
    fields := [("input_bytes", r.stats.inOctets),
               ("output_bytes", r.stats.outOctets)] }

/-- Result of a poll pass: final session store, metrics emitted to the
accumulator, errors recorded via `acc.AddError`, and the error value
returned by `Gather` (`none` models a nil return). -/
structure GatherResult where
  conns : Connections
  metrics : List Metric
  errors : List String
  ret : Option String
deriving DecidableEq, Repr

/-- The device loop of `Netconf.Gather` (netconf.go).  For each device:
`connect` (on failure, `acc.AddError` a message naming the address and
continue); `session.Exec` of the fixed RPC (on failure, return the
error, aborting the loop); `xml.Unmarshal` of the reply (on failure,
`acc.AddError` a message naming the address and continue); emit one
`netconf_interface` metric per decoded interface reading. -/
def gatherLoop (dial : Device → Except String Session)
    (exec : Session → Except String (List XmlToken)) :
    List Device → Connections → List Metric → List String → GatherResult
  | [], conns, ms, es => ⟨conns, ms, es, none⟩
  | d :: rest, conns, ms, es =>
    match connect dial conns d with
    | (.error e, conns1, _) =>
      gatherLoop dial exec rest conns1 ms
        (es ++ ["failed to connect to " ++ d.address ++ ": " ++ e])
    | (.ok s, conns1, _) =>
      match exec s with
      | .error e => ⟨conns1, ms, es, some ("RPC failed: " ++ e)⟩
      | .ok ts =>
        match decode ts with
        | .error e =>
          gatherLoop dial exec rest conns1 ms
            (es ++ ["XML parse failed for " ++ d.address ++ ": " ++ e])
        | .ok rs =>
          gatherLoop dial exec rest conns1
            (ms ++ rs.map (ifaceMetric d.address)) es

/-- Model of `Netconf.Gather`: run the device loop with an empty accumulator. -/
def gather (dial : Device → Except String Session)
    (exec : Session → Except String (List XmlToken))
    (devices : List Device) (conns : Connections) : GatherResult :=
  gatherLoop dial exec devices conns [] []

/-- The session-store invariant: the map from address to session is a
function, i.e. no address occurs twice in the store. -/
def storeInv (conns : Connections) : Prop :=
  (conns.map Prod.fst).Nodup

/-! ## Concrete sample data used by the witnesses -/

/-- A device with the given address and fixed credentials. -/
def mkDevice (a : String) : Device :=
  { address := a, username := "admin", password := "pw" }

/-- Token stream of a reply
`<data><interfaces><interface><name>eth0</name><statistics>
<in-octets>100</in-octets><out-octets>200</out-octets>
</statistics></interface></interfaces></data>`. -/
def sampleTokens : List XmlToken :=
  [.startTag "data", .startTag "interfaces", .startTag "interface",
   .startTag "name", .charData "eth0", .endTag "name",
   .startTag "statistics",
   .startTag "in-octets", .charData "100", .endTag "in-octets",
   .startTag "out-octets", .charData "200", .endTag "out-octets",
   .endTag "statistics", .endTag "interface", .endTag "interfaces",
   .endTag "data"]

/-- The reading `sampleTokens` decodes to. -/
def sampleReading : GoIface :=
  { name := "eth0", stats := { inOctets := 100, outOctets := 200 } }

/-- The root element `sampleTokens` parses to. -/
def sampleTree : Xml :=
  Xml.elem "data"
    [Xml.elem "interfaces"
      [Xml.elem "interface"
        [Xml.elem "name" [Xml.text "eth0"],
         Xml.elem "statistics"
           [Xml.elem "in-octets" [Xml.text "100"],
            Xml.elem "out-octets" [Xml.text "200"]]]]]

/-- Token stream of a reply whose single `interface` entry lacks the
`statistics/in-octets` element. -/
def missingInTokens : List XmlToken :=
  [.startTag "data", .startTag "interfaces", .startTag "interface",
   .startTag "name", .charData "eth1", .endTag "name",
   .startTag "statistics",
   .startTag "out-octets", .charData "7", .endTag "out-octets",
   .endTag "statistics", .endTag "interface", .endTag "interfaces",
   .endTag "data"]

/-- The root element `missingInTokens` parses to. -/
def missingInTree : Xml :=
  Xml.elem "data"
    [Xml.elem "interfaces"
      [Xml.elem "interface"
        [Xml.elem "name" [Xml.text "eth1"],
         Xml.elem "statistics"
           [Xml.elem "out-octets" [Xml.text "7"]]]]]

/-- Dialer mapping the three sample device addresses to sessions 1, 2
and 3. -/
def sampleDial : Device → Except String Session := fun d =>
  if d.address = "dev1" then .ok 1
  else if d.address = "dev2" then .ok 2
  else .ok 3

/-- Dialer that fails for address `dev2` and otherwise behaves like
`sampleDial`. -/
def failDev2Dial : Device → Except String Session := fun d =>
  if d.address = "dev2" then .error "no route to host" else sampleDial d

/-- Executor whose RPC fails on session 2 and otherwise returns the
sample reply. -/
def failSession2Exec : Session → Except String (List XmlToken) := fun s =>
  if s = 2 then .error "boom" else .ok sampleTokens

/-- Executor that always returns the sample reply. -/
def sampleExec : Session → Except String (List XmlToken) := fun _ =>
  .ok sampleTokens

/-! ## Helper lemmas -/

lemma lookup_none_not_mem (conns : Connections) (a : String)
    (h : conns.lookup a = none) : a ∉ conns.map Prod.fst := by
  induction conns with
  | nil => simp
  | cons p t ih =>
    obtain ⟨k, v⟩ := p
    by_cases hk : a = k
    · subst hk; simp [List.lookup] at h
    · have hb : (a == k) = false := beq_eq_false_iff_ne.mpr hk
      simp only [List.lookup, hb] at h
      simp [hk, ih h]

lemma disconnectAll_eq (conns : Connections) :
    disconnectAll conns = (conns.map Prod.snd, []) := by
  induction conns with
  | nil => rfl
  | cons p t ih => obtain ⟨k, v⟩ := p; simp [disconnectAll, ih]

lemma parseXml_elem (ts : List XmlToken) (x : Xml) (h : parseXml ts = .ok x) :
    ∃ n cs, x = Xml.elem n cs := by
  unfold parseXml at h
  repeat' split at h
  all_goals cases h
  exact ⟨_, _, rfl⟩

lemma interfacesLoop_ok (cs : List Xml) : ∀ acc : List GoIface,
    (∀ e ∈ cs.filterMap entryChildren, exceptOk (unmarshalInterface e) = true) →
    interfacesLoop acc cs = .ok (acc ++ (cs.filterMap entryChildren).map ifaceOf) := by
  induction cs with
  | nil => intro acc _; simp [interfacesLoop]
  | cons c t ih =>
    intro acc hok
    cases c with
    | text s =>
      have hfm : List.filterMap entryChildren (Xml.text s :: t) =
          List.filterMap entryChildren t := by
        simp [List.filterMap_cons, entryChildren]
      rw [show interfacesLoop acc (Xml.text s :: t) = interfacesLoop acc t from rfl,
        hfm]
      exact ih acc (fun e he => hok e (by rw [hfm]; exact he))
    | elem n cs2 =>
      by_cases hn : n = "interface"
      · subst hn
        have hfm : List.filterMap entryChildren (Xml.elem "interface" cs2 :: t) =
            cs2 :: List.filterMap entryChildren t := by
          simp [List.filterMap_cons, entryChildren]
        have he : exceptOk (unmarshalInterface cs2) = true :=
          hok cs2 (by rw [hfm]; exact List.mem_cons_self _ _)
        obtain ⟨r, hr⟩ : ∃ r, unmarshalInterface cs2 = .ok r := by
          cases hu : unmarshalInterface cs2 with
          | ok r => exact ⟨r, rfl⟩
          | error e2 => rw [hu] at he; simp [exceptOk] at he
        have ihr := ih (acc ++ [r])
          (fun e hmem => hok e (by rw [hfm]; exact List.mem_cons_of_mem _ hmem))
        calc interfacesLoop acc (Xml.elem "interface" cs2 :: t)
            = interfacesLoop (acc ++ [r]) t := by simp [interfacesLoop, hr]
          _ = .ok ((acc ++ [r]) ++ (List.filterMap entryChildren t).map ifaceOf) :=
              ihr
          _ = .ok (acc ++ (List.filterMap entryChildren
                (Xml.elem "interface" cs2 :: t)).map ifaceOf) := by
              rw [hfm]
              simp [ifaceOf, hr]
      · have hfm : List.filterMap entryChildren (Xml.elem n cs2 :: t) =
            List.filterMap entryChildren t := by
          simp [List.filterMap_cons, entryChildren, hn]
        calc interfacesLoop acc (Xml.elem n cs2 :: t)
            = interfacesLoop acc t := by simp [interfacesLoop, hn]
          _ = .ok (acc ++ (List.filterMap entryChildren t).map ifaceOf) :=
              ih acc (fun e he => hok e (by rw [hfm]; exact he))
          _ = .ok (acc ++ (List.filterMap entryChildren
                (Xml.elem n cs2 :: t)).map ifaceOf) := by rw [hfm]

lemma rootLoop_ok (cs : List Xml) : ∀ acc : List GoIface,
    (∀ e ∈ (cs.map interfaceChildren).flatten,
      exceptOk (unmarshalInterface e) = true) →
    rootLoop acc cs =
      .ok (acc ++ ((cs.map interfaceChildren).flatten).map ifaceOf) := by
  induction cs with
  | nil => intro acc _; simp [rootLoop]
  | cons c t ih =>
    intro acc hok
    cases c with
    | text s =>
      have hfl : (List.map interfaceChildren (Xml.text s :: t)).flatten =
          (List.map interfaceChildren t).flatten := by
        simp [interfaceChildren]
      rw [show rootLoop acc (Xml.text s :: t) = rootLoop acc t from rfl, hfl]
      exact ih acc (fun e he => hok e (by rw [hfl]; exact he))
    | elem n cs2 =>
      by_cases hn : n = "interfaces"
      · subst hn
        have hfl : (List.map interfaceChildren
              (Xml.elem "interfaces" cs2 :: t)).flatten =
            List.filterMap entryChildren cs2 ++
              (List.map interfaceChildren t).flatten := by
          simp [interfaceChildren]
        have h1 := interfacesLoop_ok cs2 acc
          (fun e he => hok e (by rw [hfl]; exact List.mem_append_left _ he))
        have h2 := ih (acc ++ (cs2.filterMap entryChildren).map ifaceOf)
          (fun e he => hok e (by rw [hfl]; exact List.mem_append_right _ he))
        calc rootLoop acc (Xml.elem "interfaces" cs2 :: t)
            = rootLoop (acc ++ (cs2.filterMap entryChildren).map ifaceOf) t := by
              simp [rootLoop, h1]
          _ = .ok ((acc ++ (cs2.filterMap entryChildren).map ifaceOf) ++
                ((List.map interfaceChildren t).flatten).map ifaceOf) := h2
          _ = .ok (acc ++ ((List.map interfaceChildren
                (Xml.elem "interfaces" cs2 :: t)).flatten).map ifaceOf) := by
              rw [hfl]
              simp
      · have hfl : (List.map interfaceChildren (Xml.elem n cs2 :: t)).flatten =
            (List.map interfaceChildren t).flatten := by
          simp [interfaceChildren, hn]
        calc rootLoop acc (Xml.elem n cs2 :: t)
            = rootLoop acc t := by simp [rootLoop, hn]
          _ = .ok (acc ++ ((List.map interfaceChildren t).flatten).map ifaceOf) :=
              ih acc (fun e he => hok e (by rw [hfl]; exact he))
          _ = .ok (acc ++ ((List.map interfaceChildren
                (Xml.elem n cs2 :: t)).flatten).map ifaceOf) := by rw [hfl]

lemma unmarshalStats_no_in (cs2 : List Xml) : ∀ st : Stats,
    cs2.any (hasName "in-octets") = false →
    (cs2.all fun c2 =>
      match c2 with
      | Xml.elem n cs3 =>
        if n = "out-octets" then exceptOk (copyUint64 (charData cs3)) else true
      | Xml.text _ => true) = true →
    ∃ st2, unmarshalStats st cs2 = .ok st2 ∧ st2.inOctets = st.inOctets := by
  induction cs2 with
  | nil => intro st _ _; exact ⟨st, rfl, rfl⟩
  | cons c t ih =>
    intro st hno hok
    obtain ⟨hno_c, hno_t⟩ := Bool.or_eq_false_iff.mp hno
    obtain ⟨hok_c, hok_t⟩ := Bool.and_eq_true_iff.mp hok
    cases c with
    | text s => exact ih st hno_t hok_t
    | elem n cs3 =>
      have hn_in : ¬ n = "in-octets" := by
        simpa [hasName] using hno_c
      by_cases hn : n = "out-octets"
      · subst hn
        have hok_c2 : exceptOk (copyUint64 (charData cs3)) = true := by
          simpa using hok_c
        obtain ⟨v, hv⟩ : ∃ v, copyUint64 (charData cs3) = .ok v := by
          cases hcv : copyUint64 (charData cs3) with
          | ok v => exact ⟨v, rfl⟩
          | error e2 => rw [hcv] at hok_c2; simp [exceptOk] at hok_c2
        obtain ⟨st2, hrun, heq⟩ := ih { st with outOctets := v } hno_t hok_t
        refine ⟨st2, ?_, by simpa using heq⟩
        simp [unmarshalStats, hn_in, hv, hrun]
      · obtain ⟨st2, hrun, heq⟩ := ih st hno_t hok_t
        exact ⟨st2, by simp [unmarshalStats, hn_in, hn, hrun], heq⟩

lemma unmarshalIfaceLoop_no_in (cs : List Xml) : ∀ it : GoIface,
    noInOctets cs = true → outOctetsOk cs = true →
    ∃ it2, unmarshalIfaceLoop it cs = .ok it2 ∧
      it2.stats.inOctets = it.stats.inOctets := by
  induction cs with
  | nil => intro it _ _; exact ⟨it, rfl, rfl⟩
  | cons c t ih =>
    intro it hno hout
    obtain ⟨hno_c, hno_t⟩ := Bool.and_eq_true_iff.mp hno
    obtain ⟨hout_c, hout_t⟩ := Bool.and_eq_true_iff.mp hout
    cases c with
    | text s => exact ih it hno_t hout_t
    | elem n cs2 =>
      by_cases hstat : n = "statistics"
      · subst hstat
        have hany : cs2.any (hasName "in-octets") = false := by
          simpa [statChildren] using hno_c
        have hout_c2 : (cs2.all fun c2 =>
            match c2 with
            | Xml.elem n cs3 =>
              if n = "out-octets" then exceptOk (copyUint64 (charData cs3))
              else true
            | Xml.text _ => true) = true := by
          simpa [statChildren] using hout_c
        obtain ⟨st2, hrun, heq⟩ :=
          unmarshalStats_no_in cs2 it.stats hany hout_c2
        obtain ⟨it2, hrun2, heq2⟩ := ih { it with stats := st2 } hno_t hout_t
        refine ⟨it2, ?_, by simp at heq2; rw [heq2, heq]⟩
        simp [unmarshalIfaceLoop, hrun, hrun2]
      · by_cases hname : n = "name"
        · subst hname
          obtain ⟨it2, hrun2, heq2⟩ :=
            ih { it with name := charData cs2 } hno_t hout_t
          refine ⟨it2, ?_, by simpa using heq2⟩
          simp [unmarshalIfaceLoop, hrun2]
        · obtain ⟨it2, hrun2, heq2⟩ := ih it hno_t hout_t
          exact ⟨it2, by simp [unmarshalIfaceLoop, hname, hstat, hrun2], heq2⟩

end Netconf

namespace Netconf

/-- Claim C10: when the dial fails for a device with no cached
session, `connect` returns an error naming the device's address and
leaves the session store unchanged (no entry is inserted). -/
theorem spec_C10_connect_fail_no_insert (dial : Device → Except String Session)
    (conns : Connections) (d : Device) (e : String)
    (hmiss : conns.lookup d.address = none) (hdial : dial d = .error e) :
    connect dial conns d =
      (.error ("failed to connect to " ++ d.address ++ ": " ++ e), conns, 1) := by
  simp [connect, hmiss, hdial]

/-- Witness for claim C10 at a concrete device and failing dialer. -/
theorem spec_C10_witness :
    connect (fun _ => .error "boom") [] (mkDevice "10.0.0.1:830") =
      (.error ("failed to connect to " ++ (mkDevice "10.0.0.1:830").address ++
        ": " ++ "boom"), [], 1) :=
  spec_C10_connect_fail_no_insert (fun _ => .error "boom") []
    (mkDevice "10.0.0.1:830") "boom" rfl rfl

/-- Claim C3: for a device with no cached session, `connect` invokes
the dialer exactly once and caches the session under the device's
address; any later call for the same address returns the cached
session with zero dialer invocations, whatever dialer is passed. -/
theorem spec_C3_connector_once_then_cached (dial : Device → Except String Session)
    (conns : Connections) (d : Device) (s : Session)
    (hmiss : conns.lookup d.address = none) (hdial : dial d = .ok s) :
    connect dial conns d = (.ok s, (d.address, s) :: conns, 1) ∧
    ∀ dial2 : Device → Except String Session,
      connect dial2 ((d.address, s) :: conns) d =
        (.ok s, (d.address, s) :: conns, 0) := by
  refine ⟨by simp [connect, hmiss, hdial], ?_⟩
  intro dial2
  simp [connect, List.lookup]

/-- Witness for claim C3: first call dials once and caches, second
call (with a dialer that would fail) reuses the cache. -/
theorem spec_C3_witness :
    connect sampleDial [] (mkDevice "dev1") =
      (.ok 1, [((mkDevice "dev1").address, 1)], 1) ∧
    connect (fun _ => .error "unreachable") [((mkDevice "dev1").address, 1)]
        (mkDevice "dev1") =
      (.ok 1, [((mkDevice "dev1").address, 1)], 0) :=
  ⟨(spec_C3_connector_once_then_cached sampleDial [] (mkDevice "dev1") 1 rfl rfl).1,
   (spec_C3_connector_once_then_cached sampleDial [] (mkDevice "dev1") 1 rfl rfl).2
     (fun _ => .error "unreachable")⟩

/-- Claim C7: `disconnectAll` closes every cached session and empties
the store, so a subsequent `connect` for any device (in particular a
previously cached address) invokes the dialer afresh. -/
theorem spec_C7_closeAll_then_fresh_dial (conns : Connections) (d : Device)
    (dial : Device → Except String Session) :
    (disconnectAll conns).1 = conns.map Prod.snd ∧
    (disconnectAll conns).2 = [] ∧
    (connect dial (disconnectAll conns).2 d).2.2 = 1 := by
  refine ⟨by rw [disconnectAll_eq], by rw [disconnectAll_eq], ?_⟩
  rw [disconnectAll_eq]
  cases hd : dial d <;> simp [connect, List.lookup, hd]

/-- Claim C8: the session store maps each address to at most one
session (no duplicate keys), and both `connect` and `disconnectAll`
preserve this invariant. -/
theorem spec_C8_store_invariant (dial : Device → Except String Session)
    (conns : Connections) (d : Device) (h : storeInv conns) :
    storeInv (connect dial conns d).2.1 ∧ storeInv (disconnectAll conns).2 := by
  constructor
  · match hmem : conns.lookup d.address with
    | some s => simpa [connect, hmem] using h
    | none =>
      cases hd : dial d with
      | error e => simpa [connect, hmem, hd] using h
      | ok s =>
        simp only [connect, hmem, hd]
        exact List.Nodup.cons (by simpa using lookup_none_not_mem conns d.address hmem) h
  · rw [disconnectAll_eq]
    simp [storeInv]

/-- Witness for claim C8 at a concrete store and device. -/
theorem spec_C8_witness :
    storeInv (connect sampleDial [("dev9", 9)] (mkDevice "dev1")).2.1 ∧
    storeInv (disconnectAll [("dev9", 9)]).2 :=
  spec_C8_store_invariant sampleDial [("dev9", 9)] (mkDevice "dev1")
    (by simp [storeInv])

/-- Claim C2: in a pass over three devices with distinct addresses
where only device 2's dial fails, the pass completes (`Gather`
returns nil), devices 1 and 3 both yield their stats, and exactly
one error — naming device 2's address — is recorded. -/
theorem spec_C2_connect_failure_isolated (d1 d2 d3 : Device) (s1 s3 : Session)
    (dial : Device → Except String Session)
    (exec : Session → Except String (List XmlToken))
    (ts1 ts3 : List XmlToken) (r1 r3 : List GoIface) (e : String)
    (h21 : d2.address ≠ d1.address) (h31 : d3.address ≠ d1.address)
    (h32 : d3.address ≠ d2.address)
    (hd1 : dial d1 = .ok s1) (hd2 : dial d2 = .error e) (hd3 : dial d3 = .ok s3)
    (hx1 : exec s1 = .ok ts1) (hx3 : exec s3 = .ok ts3)
    (hc1 : decode ts1 = .ok r1) (hc3 : decode ts3 = .ok r3) :
    gather dial exec [d1, d2, d3] [] =
      { conns := [(d3.address, s3), (d1.address, s1)]
        metrics := r1.map (ifaceMetric d1.address) ++
                   r3.map (ifaceMetric d3.address)
        errors := ["failed to connect to " ++ d2.address ++ ": " ++
                   ("failed to connect to " ++ d2.address ++ ": " ++ e)]
        ret := none } := by
  have h21b : (d2.address == d1.address) = false := beq_eq_false_iff_ne.mpr h21
  have h31b : (d3.address == d1.address) = false := beq_eq_false_iff_ne.mpr h31
  simp [gather, gatherLoop, connect, List.lookup, h21b, h31b,
    hd1, hd2, hd3, hx1, hx3, hc1, hc3]

/-- Witness for claim C2 on three concrete devices with a dialer that
fails for device 2. -/
theorem spec_C2_witness :
    gather failDev2Dial sampleExec
      [mkDevice "dev1", mkDevice "dev2", mkDevice "dev3"] [] =
      { conns := [((mkDevice "dev3").address, 3), ((mkDevice "dev1").address, 1)]
        metrics := [sampleReading].map (ifaceMetric (mkDevice "dev1").address) ++
                   [sampleReading].map (ifaceMetric (mkDevice "dev3").address)
        errors := ["failed to connect to " ++ (mkDevice "dev2").address ++ ": " ++
                   ("failed to connect to " ++ (mkDevice "dev2").address ++ ": " ++
                    "no route to host")]
        ret := none } :=
  spec_C2_connect_failure_isolated (mkDevice "dev1") (mkDevice "dev2")
    (mkDevice "dev3") 1 3 failDev2Dial sampleExec sampleTokens sampleTokens
    [sampleReading] [sampleReading] "no route to host"
    (by decide) (by decide) (by decide) rfl rfl rfl rfl rfl rfl rfl

/-- Claim C9: when a device's connect, RPC and decode all succeed,
the pass emits exactly one metric per decoded reading — measurement
`netconf_interface`, tags `interface` (the reading's name) and
`device` (the device's address), fields `input_bytes` and
`output_bytes` — and continues with the remaining devices. -/
theorem spec_C9_metric_per_reading (dial : Device → Except String Session)
    (exec : Session → Except String (List XmlToken))
    (d : Device) (rest : List Device) (conns conns1 : Connections)
    (s : Session) (k : Nat) (ms : List Metric) (es : List String)
    (ts : List XmlToken) (rs : List GoIface)
    (hc : connect dial conns d = (.ok s, conns1, k))
    (hx : exec s = .ok ts) (hdec : decode ts = .ok rs) :
    gatherLoop dial exec (d :: rest) conns ms es =
      gatherLoop dial exec rest conns1
        (ms ++ rs.map (ifaceMetric d.address)) es ∧
    (rs.map (ifaceMetric d.address)).length = rs.length ∧
    ∀ r ∈ rs, ifaceMetric d.address r =
      { measurement := "netconf_interface"
        tags := [("interface", r.name), ("device", d.address)]
        fields := [("input_bytes", r.stats.inOctets),
                   ("output_bytes", r.stats.outOctets)] } := by
  refine ⟨by simp [gatherLoop, hc, hx, hdec], by simp, ?_⟩
  intro r _
  rfl

/-- Witness for claim C9 on one concrete device and reply. -/
theorem spec_C9_witness :
    gatherLoop sampleDial sampleExec [mkDevice "dev1"] [] [] [] =
      gatherLoop sampleDial sampleExec [] [((mkDevice "dev1").address, 1)]
        ([] ++ [sampleReading].map (ifaceMetric (mkDevice "dev1").address)) [] ∧
    ([sampleReading].map (ifaceMetric (mkDevice "dev1").address)).length = 1 :=
  ⟨(spec_C9_metric_per_reading sampleDial sampleExec (mkDevice "dev1") [] []
      [((mkDevice "dev1").address, 1)] 1 1 [] [] sampleTokens [sampleReading]
      rfl rfl rfl).1,
   (spec_C9_metric_per_reading sampleDial sampleExec (mkDevice "dev1") [] []
      [((mkDevice "dev1").address, 1)] 1 1 [] [] sampleTokens [sampleReading]
      rfl rfl rfl).2.1⟩

/-- Claim C4: a reply payload on which parsing fails makes `decode`
fail (so it yields no readings), and within a pass this failure is
recorded as a per-device error naming the device's address while the
loop continues with the remaining devices. -/
theorem spec_C4_decode_error_isolated (ts : List XmlToken) (ep : String)
    (dial : Device → Except String Session)
    (exec : Session → Except String (List XmlToken))
    (d : Device) (rest : List Device) (conns conns1 : Connections)
    (s : Session) (k : Nat) (ms : List Metric) (es : List String)
    (hparse : parseXml ts = .error ep)
    (hc : connect dial conns d = (.ok s, conns1, k))
    (hx : exec s = .ok ts) :
    decode ts = .error ep ∧
    (∀ rs, decode ts ≠ .ok rs) ∧
    gatherLoop dial exec (d :: rest) conns ms es =
      gatherLoop dial exec rest conns1 ms
        (es ++ ["XML parse failed for " ++ d.address ++ ": " ++ ep]) := by
  have hdec : decode ts = .error ep := by simp [decode, hparse]
  exact ⟨hdec, by simp [hdec], by simp [gatherLoop, hc, hx, hdec]⟩

/-- Witness for claim C4 on a truncated (non-well-formed) payload. -/
theorem spec_C4_witness :
    decode [XmlToken.startTag "a"] = .error "missing end tag" ∧
    gatherLoop sampleDial (fun _ => .ok [XmlToken.startTag "a"])
        [mkDevice "dev1"] [] [] [] =
      gatherLoop sampleDial (fun _ => .ok [XmlToken.startTag "a"]) []
        [((mkDevice "dev1").address, 1)] []
        ([] ++ ["XML parse failed for " ++ (mkDevice "dev1").address ++ ": " ++
          "missing end tag"]) :=
  ⟨(spec_C4_decode_error_isolated [XmlToken.startTag "a"] "missing end tag"
      sampleDial (fun _ => .ok [XmlToken.startTag "a"]) (mkDevice "dev1") []
      [] [((mkDevice "dev1").address, 1)] 1 1 [] [] rfl rfl rfl).1,
   (spec_C4_decode_error_isolated [XmlToken.startTag "a"] "missing end tag"
      sampleDial (fun _ => .ok [XmlToken.startTag "a"]) (mkDevice "dev1") []
      [] [((mkDevice "dev1").address, 1)] 1 1 [] [] rfl rfl rfl).2.2⟩

/-- Claim C1 (violated by the source): with three devices where only
device 2's RPC fails, `Gather` returns the RPC error immediately:
device 3 — whose connect, RPC and decode would all succeed — is never
polled, and no per-device error is recorded for device 2.  The claim
says the failure must be recorded per device and the pass must
continue; the source's `return` on RPC failure aborts the pass. -/
theorem spec_C1_rpc_abort :
    gather sampleDial failSession2Exec
      [mkDevice "dev1", mkDevice "dev2", mkDevice "dev3"] [] =
      { conns := [("dev2", 2), ("dev1", 1)]
        metrics := [ifaceMetric "dev1" sampleReading]
        errors := []
        ret := some ("RPC failed: " ++ "boom") } := rfl

/-- Claim C5: on a well-formed reply whose `interface` entries (under
`interfaces`, in document order) all unmarshal, `decode` succeeds and
yields exactly one reading per entry, in document order; in
particular an empty entry list is not an error and yields zero
readings. -/
theorem spec_C5_one_reading_per_entry (ts : List XmlToken) (x : Xml)
    (hparse : parseXml ts = .ok x)
    (hok : (interfaceElems x).all
      (fun e => exceptOk (unmarshalInterface e)) = true) :
    decode ts = .ok ((interfaceElems x).map ifaceOf) ∧
    ((interfaceElems x).map ifaceOf).length = (interfaceElems x).length ∧
    (interfaceElems x = [] → decode ts = .ok []) := by
  obtain ⟨n, cs, rfl⟩ := parseXml_elem ts x hparse
  have hok2 : ∀ e ∈ (cs.map interfaceChildren).flatten,
      exceptOk (unmarshalInterface e) = true := by
    intro e he
    exact (List.all_eq_true.mp hok) e (by simpa [interfaceElems] using he)
  have hloop := rootLoop_ok cs [] hok2
  have h1 : decode ts = .ok ((interfaceElems (Xml.elem n cs)).map ifaceOf) := by
    simp only [decode, hparse, unmarshalReply, interfaceElems]
    simpa using hloop
  exact ⟨h1, by simp, fun he => by rw [h1, he]; rfl⟩

/-- Witness for claim C5 on the sample reply with one entry. -/
theorem spec_C5_witness :
    decode sampleTokens = .ok ((interfaceElems sampleTree).map ifaceOf) ∧
    ((interfaceElems sampleTree).map ifaceOf).length =
      (interfaceElems sampleTree).length :=
  ⟨(spec_C5_one_reading_per_entry sampleTokens sampleTree rfl rfl).1,
   (spec_C5_one_reading_per_entry sampleTokens sampleTree rfl rfl).2.1⟩

/-- Claim C6: on a well-formed reply whose single `interface` entry
has no `statistics/in-octets` element (its other numeric fields being
unmarshalable), `decode` succeeds rather than erroring, and the
entry's reading has `inputOctets = 0`. -/
theorem spec_C6_missing_in_octets_is_zero (ts : List XmlToken) (x : Xml)
    (cs : List Xml)
    (hparse : parseXml ts = .ok x)
    (hone : interfaceElems x = [cs])
    (hno : noInOctets cs = true) (hout : outOctetsOk cs = true) :
    ∃ r, decode ts = .ok [r] ∧ r.stats.inOctets = 0 := by
  obtain ⟨it2, hrun, hzero⟩ := unmarshalIfaceLoop_no_in cs {} hno hout
  obtain ⟨n, cs0, rfl⟩ := parseXml_elem ts x hparse
  have hok2 : ∀ e ∈ (cs0.map interfaceChildren).flatten,
      exceptOk (unmarshalInterface e) = true := by
    intro e he
    have he2 : e ∈ interfaceElems (Xml.elem n cs0) := by
      simpa [interfaceElems] using he
    rw [hone] at he2
    have he3 : e = cs := by simpa using he2
    subst he3
    simp [unmarshalInterface, hrun, exceptOk]
  have hloop := rootLoop_ok cs0 [] hok2
  refine ⟨ifaceOf cs, ?_, ?_⟩
  · have h1 : decode ts = .ok ((interfaceElems (Xml.elem n cs0)).map ifaceOf) := by
      simp only [decode, hparse, unmarshalReply, interfaceElems]
      simpa using hloop
    rw [h1, hone]
    rfl
  · simp [ifaceOf, unmarshalInterface, hrun]
    simpa using hzero

/-- Witness for claim C6 on a concrete reply whose entry lacks
`statistics/in-octets`. -/
theorem spec_C6_witness :
    ∃ r, decode missingInTokens = .ok [r] ∧ r.stats.inOctets = 0 :=
  spec_C6_missing_in_octets_is_zero missingInTokens missingInTree
    [Xml.elem "name" [Xml.text "eth1"],
     Xml.elem "statistics" [Xml.elem "out-octets" [Xml.text "7"]]]
    rfl rfl rfl rfl

end Netconf
